import Mathlib

/-!
Verification of the bluetray repository (src/main.rs): a Windows tray
application that lists paired Bluetooth devices in a tray menu and connects
to a device when its menu entry is selected.  The development shallowly
embeds the connection registry (`ConnectionManager`), the platform connect
sequence (`connect_to_bluetooth_device`), device discovery
(`get_paired_bluetooth_devices`), startup menu construction, and the event
loop dispatch of `main`.

The WinRT platform is modelled as an oracle (`Platform`, `DiscoveryPlatform`)
that fixes the outcome of every fallible platform call; embedded functions
additionally return the list of platform calls they performed, so that
claims about "number of platform connect invocations" and "no GATT call"
are statable.
-/

namespace Bluetray

/-- A WinRT `windows::core::Error`, identified by its HRESULT code. -/
structure Error where
  code : Nat
deriving DecidableEq, Repr

/-- The HRESULT returned by `IVectorView::GetAt(0)` on an empty vector
(`E_BOUNDS`), the failure of line 179's `GetAt(0)?` when the device offers
no RFCOMM services. -/
def E_BOUNDS : Error := ⟨2147483659⟩

/-- A connected `StreamSocket`: the embedding records the host name and
service name the socket was connected to by `ConnectAsync` (main.rs
lines 180-184). -/
structure StreamSocket where
  host : String
  service : String
deriving DecidableEq, Repr

/-- An RFCOMM service as returned by `GetRfcommServicesAsync`; its
`ConnectionHostName()?.ToString()?` and `ConnectionServiceName()?`
accessors are fallible WinRT calls, so the oracle fixes their results. -/
structure RfcommDeviceService where
  connectionHostName : Except Error String
  connectionServiceName : Except Error String

/-- Whether a device is a classic (RFCOMM-capable) or low-energy device.
This is platform-side metadata: main.rs never inspects it (it imports only
`windows::Devices::Bluetooth::BluetoothDevice`, the classic API). -/
inductive BluetoothKind where
  | classic
  | lowEnergy
deriving DecidableEq, Repr

/-- The platform device object produced by `BluetoothDevice::FromIdAsync`:
its RFCOMM service enumeration and its `Name()?` accessor are fallible. -/
structure BluetoothDeviceObj where
  kind : BluetoothKind
  rfcommServices : Except Error (List RfcommDeviceService)
  name : Except Error String

/-- Oracle fixing the outcome of each fallible platform call in the
connect path of main.rs lines 176-188. -/
structure Platform where
  fromIdAsync : String → Except Error BluetoothDeviceObj
  socketNew : Except Error Unit
  connectAsync : String → String → Except Error Unit

/-- The observable platform calls of a connect attempt.  The WinRT API also
offers low-energy operations (`BluetoothLEDevice::FromIdAsync` /
`GattSession`, `GetGattServicesAsync`); they are in the vocabulary so that
their absence from every trace of the embedded code is statable. -/
inductive PlatformCall where
  | fromId (deviceId : String)
  | getRfcommServices (deviceId : String)
  | socketConnect (host service : String)
  | openGattSession (deviceId : String)
  | getGattServices (deviceId : String)
deriving DecidableEq, Repr

/-- Number of transport-level connect invocations (`socket.ConnectAsync`)
in a platform-call trace. -/
def countSocketConnects : List PlatformCall → Nat
  | [] => 0
  | PlatformCall.socketConnect _ _ :: rest => countSocketConnects rest + 1
  | _ :: rest => countSocketConnects rest

/-- main.rs lines 176-188, `connect_to_bluetooth_device`: resolve the
device by id (`FromIdAsync?.get?`), enumerate its RFCOMM services and take
the first (`GetRfcommServicesAsync?.get?.Services?.GetAt(0)?`), create a
`StreamSocket` (`StreamSocket::new()?`), read the service's host and
service name (`ConnectionHostName()?`, `ConnectionServiceName()?`), connect
(`ConnectAsync(..)?.get?`), then read `device.Name()?` for the success log.
Every `?` short-circuits with the error.  Returns the result together with
the trace of platform calls performed. -/
def connect_to_bluetooth_device (p : Platform) (device_id : String) :
    Except Error StreamSocket × List PlatformCall :=
  match p.fromIdAsync device_id with
  | Except.error e => (Except.error e, [PlatformCall.fromId device_id])
  | Except.ok device =>
    match device.rfcommServices with
    | Except.error e =>
        (Except.error e,
         [PlatformCall.fromId device_id, PlatformCall.getRfcommServices device_id])
    | Except.ok services =>
      match services.head? with
      | none =>
          (Except.error E_BOUNDS,
           [PlatformCall.fromId device_id, PlatformCall.getRfcommServices device_id])
      | some service =>
        match p.socketNew with
        | Except.error e =>
            (Except.error e,
             [PlatformCall.fromId device_id, PlatformCall.getRfcommServices device_id])
        | Except.ok _ =>
          match service.connectionHostName with
          | Except.error e =>
              (Except.error e,
               [PlatformCall.fromId device_id, PlatformCall.getRfcommServices device_id])
          | Except.ok host =>
            match service.connectionServiceName with
            | Except.error e =>
                (Except.error e,
                 [PlatformCall.fromId device_id, PlatformCall.getRfcommServices device_id])
            | Except.ok svc =>
              match p.connectAsync host svc with
              | Except.error e =>
                  (Except.error e,
                   [PlatformCall.fromId device_id, PlatformCall.getRfcommServices device_id,
                    PlatformCall.socketConnect host svc])
              | Except.ok _ =>
                match device.name with
                | Except.error e =>
                    (Except.error e,
                     [PlatformCall.fromId device_id, PlatformCall.getRfcommServices device_id,
                      PlatformCall.socketConnect host svc])
                | Except.ok _ =>
                    (Except.ok ⟨host, svc⟩,
                     [PlatformCall.fromId device_id, PlatformCall.getRfcommServices device_id,
                      PlatformCall.socketConnect host svc])

/-- First-match association-list lookup: the embedding of `HashMap::get` /
the membership test underlying `HashMap::contains_key`. -/
def mapLookup {κ α : Type} [DecidableEq κ] : List (κ × α) → κ → Option α
  | [], _ => none
  | (k, v) :: rest, key => if k = key then some v else mapLookup rest key

/-- `HashMap::contains_key` (main.rs line 38). -/
def contains_key {κ α : Type} [DecidableEq κ] (m : List (κ × α)) (key : κ) : Bool :=
  (mapLookup m key).isSome

/-- `HashMap::insert` (main.rs line 47): replaces the entry if the key is
present, otherwise adds it. -/
def insertAC {κ α : Type} [DecidableEq κ] : List (κ × α) → κ → α → List (κ × α)
  | [], key, v => [(key, v)]
  | (k, w) :: rest, key, v =>
      if k = key then (key, v) :: rest else (k, w) :: insertAC rest key v

/-- `HashMap::remove` (main.rs line 54): removes the entry if present and
returns the removed value. -/
def removeAC {κ α : Type} [DecidableEq κ] : List (κ × α) → κ → Option α × List (κ × α)
  | [], _ => (none, [])
  | (k, w) :: rest, key =>
      if k = key then (some w, rest)
      else
        let r := removeAC rest key
        (r.1, (k, w) :: r.2)

/-- The keys of the registry. -/
def keysAC {κ α : Type} (m : List (κ × α)) : List κ :=
  m.map Prod.fst

/-- Number of entries for a given key. -/
def countKey {κ α : Type} [DecidableEq κ] (m : List (κ × α)) (key : κ) : Nat :=
  (m.filter (fun p => p.1 = key)).length

/-- main.rs lines 22-25: `ConnectionManager` owns the map from device id to
the established `StreamSocket`. -/
structure ConnectionManager where
  active_connections : List (String × StreamSocket)
deriving DecidableEq, Repr

/-- `ConnectionManager::new` (main.rs lines 28-32). -/
def ConnectionManager.new : ConnectionManager := ⟨[]⟩

/-- main.rs lines 34-51, `ConnectionManager::connect_device`: if the device
id is already a key of `active_connections`, log and return `Ok(())` with
no platform call; otherwise run `connect_to_bluetooth_device` and on
success insert the socket.  Returns the result, the updated manager and
the platform-call trace. -/
def ConnectionManager.connect_device (m : ConnectionManager) (p : Platform)
    (device_id : String) :
    Except Error Unit × ConnectionManager × List PlatformCall :=
  if contains_key m.active_connections device_id then
    (Except.ok (), m, [])
  else
    match connect_to_bluetooth_device p device_id with
    | (Except.error e, tr) => (Except.error e, m, tr)
    | (Except.ok socket, tr) =>
        (Except.ok (), ⟨insertAC m.active_connections device_id socket⟩, tr)

/-- main.rs lines 53-55, `ConnectionManager::disconnect_device`:
`self.active_connections.remove(device_id).is_some()`. -/
def ConnectionManager.disconnect_device (m : ConnectionManager) (device_id : String) :
    Bool × ConnectionManager :=
  let r := removeAC m.active_connections device_id
  (r.1.isSome, ⟨r.2⟩)

/-- The registry query the manager performs, `active_connections.contains_key`
(main.rs line 38); the spec names this operation `isConnected`.  Returned
together with the (unchanged) manager to make statable that it has no side
effect on the registry. -/
def ConnectionManager.is_connected (m : ConnectionManager) (device_id : String) :
    Bool × ConnectionManager :=
  (contains_key m.active_connections device_id, m)

/-- An operation requested of the connection registry. -/
inductive Op where
  | connect (device_id : String)
  | disconnect (device_id : String)
deriving DecidableEq, Repr

/-- Run a sequence of registry operations against a fixed platform oracle,
threading the manager state; results and traces of the individual calls
are discarded. -/
def runOps (p : Platform) (m : ConnectionManager) : List Op → ConnectionManager
  | [] => m
  | Op.connect d :: rest => runOps p (m.connect_device p d).2.1 rest
  | Op.disconnect d :: rest => runOps p (m.disconnect_device d).2 rest

/-- A `DeviceInformation` as produced by device enumeration; its `Id()` and
`Name()` accessors are fallible WinRT calls, fixed by the oracle. -/
structure DeviceInformation where
  Id : Except Error String
  Name : Except Error String

/-- Oracle for the discovery path of main.rs lines 168-174:
`GetDeviceSelectorFromPairingState(true)?` and
`FindAllAsyncAqsFilter(&selector)?.get()?` (the latter two `?`s folded into
one fallible enumeration step). -/
structure DiscoveryPlatform where
  getDeviceSelectorFromPairingState : Bool → Except Error String
  findAllAsyncAqsFilter : String → Except Error (List DeviceInformation)

/-- main.rs lines 168-174, `get_paired_bluetooth_devices`: build the
paired-state selector, enumerate matching devices, return them.  The
devices' names are not inspected here. -/
def get_paired_bluetooth_devices (dp : DiscoveryPlatform) :
    Except Error (List DeviceInformation) :=
  match dp.getDeviceSelectorFromPairingState true with
  | Except.error e => Except.error e
  | Except.ok selector =>
    match dp.findAllAsyncAqsFilter selector with
    | Except.error e => Except.error e
    | Except.ok devices => Except.ok devices

/-- The menu state built at startup: the device menu items
(menu item id, label) in order, and the `device_map` from menu item id to
device id (main.rs lines 84-99). -/
structure MenuModel where
  device_items : List (Nat × String)
  device_map : List (Nat × String)
deriving DecidableEq, Repr

/-- main.rs lines 85-99: for each discovered device, create a menu item
labelled `device_info.Name().expect("device name doesn't exist")` and map
the item's id to `device_info.Id().unwrap()`.  A panic is embedded as
`Except.error` carrying the panic message; menu item ids are modelled by a
counter.  The label is never defaulted when `Name()` fails. -/
def buildDeviceMenu : Nat → List DeviceInformation → Except String MenuModel
  | _, [] => Except.ok ⟨[], []⟩
  | fresh, d :: rest =>
    match d.Name with
    | Except.error _ => Except.error "device name doesn't exist"
    | Except.ok label =>
      match d.Id with
      | Except.error _ => Except.error "called Result::unwrap on an Err value"
      | Except.ok devId =>
        match buildDeviceMenu (fresh + 1) rest with
        | Except.error msg => Except.error msg
        | Except.ok menu =>
            Except.ok ⟨(fresh, label) :: menu.device_items,
                       (fresh, devId) :: menu.device_map⟩

/-- main.rs lines 81-99, the startup of `main`:
`get_paired_bluetooth_devices().await.unwrap()` — a discovery failure
panics (`Result::unwrap` on `Err`) — followed by device menu construction.
A panic is embedded as `Except.error` carrying the panic message. -/
def startup (dp : DiscoveryPlatform) : Except String MenuModel :=
  match get_paired_bluetooth_devices dp with
  | Except.error _ => Except.error "called Result::unwrap on an Err value"
  | Except.ok devices => buildDeviceMenu 0 devices

/-- `tao::event_loop::ControlFlow` as used by main.rs: `Wait` (set at the
top of every iteration, line 126) or `Exit` (set on quit, line 153). -/
inductive ControlFlow where
  | Wait
  | Exit
deriving DecidableEq, Repr

/-- The events dispatched by the event loop closure of main.rs
lines 125-165: the init event, a forwarded tray-icon event, a forwarded
menu event (carrying the selected menu item id), and everything else
(`_ => {}`). -/
inductive LoopEvent where
  | newEventsInit
  | trayIconEvent (info : String)
  | menuEvent (menuId : Nat)
  | other
deriving DecidableEq, Repr

/-- The mutable state captured by the event-loop closure: the connection
manager and whether the tray icon object is currently held
(`tray_icon : Option<TrayIcon>`, taken on quit). -/
structure LoopState where
  manager : ConnectionManager
  tray_icon : Bool
deriving DecidableEq, Repr

/-- The user-visible log line for a connect failure (main.rs line 158). -/
def failLogLine (e : Error) : String :=
  "Failed to connect to device: " ++ toString e.code

/-- main.rs lines 125-165, one iteration of the event-loop closure:
control flow starts as `Wait`; on init the tray icon is built; a tray-icon
event is only logged; on a menu event, if the id is the quit item's the
tray icon is dropped and control flow becomes `Exit`, otherwise if the id
is in `device_map` the manager's `connect_device` runs and an `Err` is
logged; every other event does nothing.  Returns the new state, the
control flow, and the log lines printed. -/
def handle_event (p : Platform) (quitId : Nat) (device_map : List (Nat × String))
    (st : LoopState) (ev : LoopEvent) : LoopState × ControlFlow × List String :=
  match ev with
  | LoopEvent.newEventsInit => ({ st with tray_icon := true }, ControlFlow.Wait, [])
  | LoopEvent.trayIconEvent info => (st, ControlFlow.Wait, [info])
  | LoopEvent.menuEvent mid =>
      if mid = quitId then
        ({ st with tray_icon := false }, ControlFlow.Exit, [])
      else
        match mapLookup device_map mid with
        | some device_id =>
          match st.manager.connect_device p device_id with
          | (Except.error e, m1, _) =>
              ({ st with manager := m1 }, ControlFlow.Wait, [failLogLine e])
          | (Except.ok _, m1, _) =>
              ({ st with manager := m1 }, ControlFlow.Wait, [])
        | none => (st, ControlFlow.Wait, [])
  | LoopEvent.other => (st, ControlFlow.Wait, [])

/-- Run the event loop on a list of incoming events, stopping when an
iteration sets `ControlFlow::Exit`. -/
def runEvents (p : Platform) (quitId : Nat) (device_map : List (Nat × String)) :
    LoopState → List LoopEvent → LoopState
  | st, [] => st
  | st, ev :: rest =>
    let r := handle_event p quitId device_map st ev
    match r.2.1 with
    | ControlFlow.Exit => r.1
    | ControlFlow.Wait => runEvents p quitId device_map r.1 rest

/-- Claim-side predicate (from the spec's words, for the device-type-branch
claim): a connect attempt "opens a GATT session" when its platform trace
contains a GATT-session call. -/
def opensGattSession (tr : List PlatformCall) : Prop :=
  ∃ x, PlatformCall.openGattSession x ∈ tr

/-! ### Concrete fixtures used to instantiate the theorems -/

/-- A platform where device id "A1" resolves to a classic device offering
one RFCOMM service, and every platform call succeeds. -/
def okPlatform : Platform :=
  { fromIdAsync := fun d =>
      if d = "A1" then
        Except.ok ⟨BluetoothKind.classic,
          Except.ok [⟨Except.ok "host-A1", Except.ok "svc-A1"⟩],
          Except.ok "Headset"⟩
      else Except.error ⟨2⟩
    socketNew := Except.ok ()
    connectAsync := fun _ _ => Except.ok () }

/-- A platform on which resolving any device id fails (device
unreachable). -/
def failPlatform : Platform :=
  { fromIdAsync := fun _ => Except.error ⟨3⟩
    socketNew := Except.ok ()
    connectAsync := fun _ _ => Except.ok () }

/-- A platform where device id "LE1" resolves to a low-energy device; the
oracle still answers the RFCOMM enumeration the code performs. -/
def lePlatform : Platform :=
  { fromIdAsync := fun d =>
      if d = "LE1" then
        Except.ok ⟨BluetoothKind.lowEnergy,
          Except.ok [⟨Except.ok "le-host", Except.ok "le-svc"⟩],
          Except.ok "LE Gadget"⟩
      else Except.error ⟨2⟩
    socketNew := Except.ok ()
    connectAsync := fun _ _ => Except.ok () }

/-- The manager state after a successful connect of "A1" on `okPlatform`. -/
def mgrA : ConnectionManager := ⟨[("A1", ⟨"host-A1", "svc-A1"⟩)]⟩

/-- A discovery platform whose device enumeration fails. -/
def failDiscovery : DiscoveryPlatform :=
  { getDeviceSelectorFromPairingState := fun _ => Except.ok "paired-selector"
    findAllAsyncAqsFilter := fun _ => Except.error ⟨4⟩ }

/-- A paired device whose `Name()` accessor fails. -/
def namelessDevice : DeviceInformation := ⟨Except.ok "dev-1", Except.error ⟨5⟩⟩

/-- A discovery platform that successfully enumerates exactly one paired
device, which lacks a name. -/
def namelessDiscovery : DiscoveryPlatform :=
  { getDeviceSelectorFromPairingState := fun _ => Except.ok "paired-selector"
    findAllAsyncAqsFilter := fun _ => Except.ok [namelessDevice] }

/-! ### Association-list lemmas -/

theorem mem_keysAC_iff {κ α : Type} [DecidableEq κ] (m : List (κ × α)) (k : κ) :
    k ∈ keysAC m ↔ contains_key m k = true := by
  induction m with
  | nil => simp [keysAC, contains_key, mapLookup]
  | cons hd tl ih =>
    obtain ⟨k1, v1⟩ := hd
    by_cases h : k1 = k
    · simp [keysAC, contains_key, mapLookup, h]
    · simp only [keysAC, List.map_cons, List.mem_cons, contains_key, mapLookup] at ih ⊢
      simp [h, Ne.symm h, ih]

theorem mapLookup_insertAC_self {κ α : Type} [DecidableEq κ] (m : List (κ × α))
    (k : κ) (v : α) : mapLookup (insertAC m k v) k = some v := by
  induction m with
  | nil => simp [insertAC, mapLookup]
  | cons hd tl ih =>
    obtain ⟨k1, v1⟩ := hd
    by_cases h : k1 = k
    · simp [insertAC, h, mapLookup]
    · simp [insertAC, h, mapLookup, ih]

theorem mapLookup_insertAC_ne {κ α : Type} [DecidableEq κ] (m : List (κ × α))
    (k k' : κ) (v : α) (h : k' ≠ k) :
    mapLookup (insertAC m k v) k' = mapLookup m k' := by
  induction m with
  | nil => simp [insertAC, mapLookup, Ne.symm h]
  | cons hd tl ih =>
    obtain ⟨k1, v1⟩ := hd
    by_cases h1 : k1 = k
    · subst h1
      simp [insertAC, mapLookup, Ne.symm h]
    · by_cases h2 : k1 = k'
      · simp [insertAC, h1, mapLookup, h2, h]
      · simp [insertAC, h1, mapLookup, h2, ih]

theorem keysAC_insertAC_of_not_mem {κ α : Type} [DecidableEq κ] (m : List (κ × α))
    (k : κ) (v : α) (h : contains_key m k = false) :
    keysAC (insertAC m k v) = keysAC m ++ [k] := by
  induction m with
  | nil => simp [insertAC, keysAC]
  | cons hd tl ih =>
    obtain ⟨k1, v1⟩ := hd
    by_cases h1 : k1 = k
    · simp [contains_key, mapLookup, h1] at h
    · simp only [contains_key, mapLookup, h1, if_false] at h
      have hih := ih h
      simp only [keysAC] at hih ⊢
      simp [insertAC, h1, hih]

theorem keysAC_insertAC_of_mem {κ α : Type} [DecidableEq κ] (m : List (κ × α))
    (k : κ) (v : α) (h : contains_key m k = true) :
    keysAC (insertAC m k v) = keysAC m := by
  induction m with
  | nil => simp [contains_key, mapLookup] at h
  | cons hd tl ih =>
    obtain ⟨k1, v1⟩ := hd
    by_cases h1 : k1 = k
    · simp [insertAC, h1, keysAC]
    · simp only [contains_key, mapLookup, h1, if_false] at h
      have hih := ih h
      simp only [keysAC] at hih ⊢
      simp [insertAC, h1, hih]

theorem nodup_keysAC_insertAC {κ α : Type} [DecidableEq κ] (m : List (κ × α))
    (k : κ) (v : α) (hn : (keysAC m).Nodup) :
    (keysAC (insertAC m k v)).Nodup := by
  by_cases h : contains_key m k = true
  · rw [keysAC_insertAC_of_mem m k v h]; exact hn
  · rw [keysAC_insertAC_of_not_mem m k v (by simpa using h)]
    have hk : k ∉ keysAC m := by
      rw [mem_keysAC_iff]; simpa using h
    simpa [List.nodup_append] using ⟨hn, hk⟩

theorem removeAC_fst {κ α : Type} [DecidableEq κ] (m : List (κ × α)) (k : κ) :
    (removeAC m k).1 = mapLookup m k := by
  induction m with
  | nil => simp [removeAC, mapLookup]
  | cons hd tl ih =>
    obtain ⟨k1, v1⟩ := hd
    by_cases h : k1 = k
    · simp [removeAC, h, mapLookup]
    · simp [removeAC, h, mapLookup, ih]

theorem removeAC_of_not_mem {κ α : Type} [DecidableEq κ] (m : List (κ × α)) (k : κ)
    (h : contains_key m k = false) : removeAC m k = (none, m) := by
  induction m with
  | nil => simp [removeAC]
  | cons hd tl ih =>
    obtain ⟨k1, v1⟩ := hd
    by_cases h1 : k1 = k
    · simp [contains_key, mapLookup, h1] at h
    · simp only [contains_key, mapLookup, h1, if_false] at h
      simp [removeAC, h1, ih h]

theorem mapLookup_removeAC_ne {κ α : Type} [DecidableEq κ] (m : List (κ × α))
    (k k' : κ) (h : k' ≠ k) :
    mapLookup (removeAC m k).2 k' = mapLookup m k' := by
  induction m with
  | nil => simp [removeAC]
  | cons hd tl ih =>
    obtain ⟨k1, v1⟩ := hd
    by_cases h1 : k1 = k
    · subst h1
      simp [removeAC, mapLookup, Ne.symm h]
    · by_cases h2 : k1 = k'
      · simp [removeAC, h1, mapLookup, h2, h]
      · simp [removeAC, h1, mapLookup, h2, ih]

theorem keysAC_removeAC_sublist {κ α : Type} [DecidableEq κ] (m : List (κ × α))
    (k : κ) : List.Sublist (keysAC (removeAC m k).2) (keysAC m) := by
  induction m with
  | nil => simp [removeAC, keysAC]
  | cons hd tl ih =>
    obtain ⟨k1, v1⟩ := hd
    by_cases h : k1 = k
    · subst h
      simp only [removeAC, if_pos rfl, keysAC, List.map_cons]
      exact List.sublist_cons_self _ _
    · simpa [removeAC, h, keysAC] using List.Sublist.cons₂ k1 ih

theorem nodup_keysAC_removeAC {κ α : Type} [DecidableEq κ] (m : List (κ × α))
    (k : κ) (hn : (keysAC m).Nodup) : (keysAC (removeAC m k).2).Nodup :=
  List.Sublist.nodup (keysAC_removeAC_sublist m k) hn

theorem mapLookup_removeAC_self {κ α : Type} [DecidableEq κ] (m : List (κ × α))
    (k : κ) (hn : (keysAC m).Nodup) : mapLookup (removeAC m k).2 k = none := by
  induction m with
  | nil => simp [removeAC, mapLookup]
  | cons hd tl ih =>
    obtain ⟨k1, v1⟩ := hd
    simp only [keysAC, List.map_cons, List.nodup_cons] at hn
    by_cases h : k1 = k
    · subst h
      simp only [removeAC, if_pos rfl]
      have hc : ¬ contains_key tl k1 = true :=
        fun hcc => hn.1 ((mem_keysAC_iff tl k1).mpr hcc)
      cases hmm : mapLookup tl k1 with
      | none => exact hmm
      | some w => exact absurd (by simp [contains_key, hmm]) hc
    · simp [removeAC, h, mapLookup, ih hn.2]

theorem length_removeAC_of_mem {κ α : Type} [DecidableEq κ] (m : List (κ × α))
    (k : κ) (h : contains_key m k = true) :
    (removeAC m k).2.length + 1 = m.length := by
  induction m with
  | nil => simp [contains_key, mapLookup] at h
  | cons hd tl ih =>
    obtain ⟨k1, v1⟩ := hd
    by_cases h1 : k1 = k
    · simp [removeAC, h1]
    · simp only [contains_key, mapLookup, h1, if_false] at h
      simp [removeAC, h1, ih h]

theorem countKey_eq_one_of_nodup {κ α : Type} [DecidableEq κ] (m : List (κ × α))
    (k : κ) (hn : (keysAC m).Nodup) (hc : contains_key m k = true) :
    countKey m k = 1 := by
  induction m with
  | nil => simp [contains_key, mapLookup] at hc
  | cons hd tl ih =>
    obtain ⟨k1, v1⟩ := hd
    simp only [keysAC, List.map_cons, List.nodup_cons] at hn
    by_cases h : k1 = k
    · subst h
      have hfil : tl.filter (fun p => p.1 = k1) = [] := by
        rw [List.filter_eq_nil_iff]
        intro p hp
        simp only [decide_eq_true_eq]
        intro hpk
        exact hn.1 (by simpa [keysAC, hpk] using List.mem_map_of_mem Prod.fst hp)
      simp [countKey, List.filter_cons, hfil]
    · simp only [contains_key, mapLookup, h, if_false] at hc
      have := ih hn.2 hc
      simpa [countKey, List.filter_cons, h] using this

/-! ### Lemmas about the connection manager's operations -/

theorem connect_device_of_mem (p : Platform) (m : ConnectionManager) (d : String)
    (h : contains_key m.active_connections d = true) :
    m.connect_device p d = (Except.ok (), m, []) := by
  simp [ConnectionManager.connect_device, h]

theorem connect_device_of_not_mem_ok (p : Platform) (m : ConnectionManager) (d : String)
    (s : StreamSocket) (tr : List PlatformCall)
    (h : contains_key m.active_connections d = false)
    (hc : connect_to_bluetooth_device p d = (Except.ok s, tr)) :
    m.connect_device p d =
      (Except.ok (), ⟨insertAC m.active_connections d s⟩, tr) := by
  simp [ConnectionManager.connect_device, h, hc]

theorem connect_device_of_not_mem_error (p : Platform) (m : ConnectionManager)
    (d : String) (e : Error) (tr : List PlatformCall)
    (h : contains_key m.active_connections d = false)
    (hc : connect_to_bluetooth_device p d = (Except.error e, tr)) :
    m.connect_device p d = (Except.error e, m, tr) := by
  simp [ConnectionManager.connect_device, h, hc]

theorem connect_device_error_unchanged (p : Platform) (m : ConnectionManager)
    (d : String) (e : Error) (h : (m.connect_device p d).1 = Except.error e) :
    (m.connect_device p d).2.1 = m := by
  by_cases hm : contains_key m.active_connections d
  · rw [connect_device_of_mem p m d hm] at h
    exact absurd h (by simp)
  · rcases hc : connect_to_bluetooth_device p d with ⟨res, tr⟩
    cases res with
    | error e2 =>
      rw [connect_device_of_not_mem_error p m d e2 tr (by simpa using hm) hc]
    | ok s =>
      rw [connect_device_of_not_mem_ok p m d s tr (by simpa using hm) hc] at h
      exact absurd h (by simp)

theorem connect_device_ok_mem (p : Platform) (m : ConnectionManager) (d : String)
    (h : (m.connect_device p d).1.isOk = true) :
    contains_key (m.connect_device p d).2.1.active_connections d = true := by
  by_cases hm : contains_key m.active_connections d
  · rw [connect_device_of_mem p m d hm]
    exact hm
  · rcases hc : connect_to_bluetooth_device p d with ⟨res, tr⟩
    cases res with
    | error e =>
      rw [connect_device_of_not_mem_error p m d e tr (by simpa using hm) hc] at h
      simp [Except.isOk, Except.toBool] at h
    | ok s =>
      rw [connect_device_of_not_mem_ok p m d s tr (by simpa using hm) hc]
      simp [contains_key, mapLookup_insertAC_self]

theorem connect_device_preserves_mem (p : Platform) (m : ConnectionManager)
    (d k : String) (h : contains_key m.active_connections k = true) :
    contains_key (m.connect_device p d).2.1.active_connections k = true := by
  by_cases hm : contains_key m.active_connections d
  · rw [connect_device_of_mem p m d hm]; exact h
  · rcases hc : connect_to_bluetooth_device p d with ⟨res, tr⟩
    cases res with
    | error e =>
      rw [connect_device_of_not_mem_error p m d e tr (by simpa using hm) hc]
      exact h
    | ok s =>
      rw [connect_device_of_not_mem_ok p m d s tr (by simpa using hm) hc]
      by_cases hk : k = d
      · simp [contains_key, hk, mapLookup_insertAC_self]
      · simpa [contains_key, mapLookup_insertAC_ne _ _ _ _ hk] using h

theorem connect_device_mem_ne (p : Platform) (m : ConnectionManager) (d k : String)
    (hk : k ≠ d) :
    contains_key (m.connect_device p d).2.1.active_connections k =
      contains_key m.active_connections k := by
  by_cases hm : contains_key m.active_connections d
  · rw [connect_device_of_mem p m d hm]
  · rcases hc : connect_to_bluetooth_device p d with ⟨res, tr⟩
    cases res with
    | error e =>
      rw [connect_device_of_not_mem_error p m d e tr (by simpa using hm) hc]
    | ok s =>
      rw [connect_device_of_not_mem_ok p m d s tr (by simpa using hm) hc]
      simp [contains_key, mapLookup_insertAC_ne _ _ _ _ hk]

theorem connect_device_nodup (p : Platform) (m : ConnectionManager) (d : String)
    (hn : (keysAC m.active_connections).Nodup) :
    (keysAC (m.connect_device p d).2.1.active_connections).Nodup := by
  by_cases hm : contains_key m.active_connections d
  · rw [connect_device_of_mem p m d hm]; exact hn
  · rcases hc : connect_to_bluetooth_device p d with ⟨res, tr⟩
    cases res with
    | error e =>
      rw [connect_device_of_not_mem_error p m d e tr (by simpa using hm) hc]
      exact hn
    | ok s =>
      rw [connect_device_of_not_mem_ok p m d s tr (by simpa using hm) hc]
      exact nodup_keysAC_insertAC _ _ _ hn

theorem disconnect_device_of_not_mem (m : ConnectionManager) (d : String)
    (h : contains_key m.active_connections d = false) :
    m.disconnect_device d = (false, m) := by
  obtain ⟨ac⟩ := m
  simp [ConnectionManager.disconnect_device, removeAC_of_not_mem ac d h]

theorem disconnect_device_nodup (m : ConnectionManager) (d : String)
    (hn : (keysAC m.active_connections).Nodup) :
    (keysAC (m.disconnect_device d).2.active_connections).Nodup :=
  nodup_keysAC_removeAC _ _ hn

theorem disconnect_device_mem_ne (m : ConnectionManager) (d k : String) (hk : k ≠ d) :
    contains_key (m.disconnect_device d).2.active_connections k =
      contains_key m.active_connections k := by
  simp [ConnectionManager.disconnect_device, contains_key,
        mapLookup_removeAC_ne _ _ _ hk]

theorem disconnect_device_not_mem_self (m : ConnectionManager) (d : String)
    (hn : (keysAC m.active_connections).Nodup) :
    contains_key (m.disconnect_device d).2.active_connections d = false := by
  simp [ConnectionManager.disconnect_device, contains_key,
        mapLookup_removeAC_self _ _ hn]

/-! ### Lemmas about operation sequences -/

theorem runOps_append (p : Platform) (m : ConnectionManager) (l1 l2 : List Op) :
    runOps p m (l1 ++ l2) = runOps p (runOps p m l1) l2 := by
  induction l1 generalizing m with
  | nil => rfl
  | cons op rest ih =>
    cases op with
    | connect d => simp [runOps, ih]
    | disconnect d => simp [runOps, ih]

theorem runOps_nodup (p : Platform) (m : ConnectionManager) (ops : List Op)
    (hn : (keysAC m.active_connections).Nodup) :
    (keysAC (runOps p m ops).active_connections).Nodup := by
  induction ops generalizing m with
  | nil => exact hn
  | cons op rest ih =>
    cases op with
    | connect d => exact ih _ (connect_device_nodup p m d hn)
    | disconnect d => exact ih _ (disconnect_device_nodup m d hn)

/-! ### Characterization of the platform connect sequence -/

theorem ctbd_ok (p : Platform) (d : String) (s : StreamSocket)
    (h : (connect_to_bluetooth_device p d).1 = Except.ok s) :
    ∃ dev services service,
      p.fromIdAsync d = Except.ok dev ∧
      dev.rfcommServices = Except.ok services ∧
      services.head? = some service ∧
      service.connectionHostName = Except.ok s.host ∧
      service.connectionServiceName = Except.ok s.service ∧
      (connect_to_bluetooth_device p d).2 =
        [PlatformCall.fromId d, PlatformCall.getRfcommServices d,
         PlatformCall.socketConnect s.host s.service] := by
  rcases hf : p.fromIdAsync d with e | dev
  · simp [connect_to_bluetooth_device, hf] at h
  · rcases hr : dev.rfcommServices with e | services
    · simp [connect_to_bluetooth_device, hf, hr] at h
    · rcases hh : services.head? with _ | service
      · simp [connect_to_bluetooth_device, hf, hr, hh] at h
      · rcases hn : p.socketNew with e | u
        · simp [connect_to_bluetooth_device, hf, hr, hh, hn] at h
        · rcases hch : service.connectionHostName with e | host
          · simp [connect_to_bluetooth_device, hf, hr, hh, hn, hch] at h
          · rcases hcs : service.connectionServiceName with e | svc
            · simp [connect_to_bluetooth_device, hf, hr, hh, hn, hch, hcs] at h
            · rcases hca : p.connectAsync host svc with e | u2
              · simp [connect_to_bluetooth_device, hf, hr, hh, hn, hch, hcs, hca] at h
              · rcases hname : dev.name with e | nm
                · simp [connect_to_bluetooth_device, hf, hr, hh, hn, hch, hcs, hca,
                        hname] at h
                · have hs : s = ⟨host, svc⟩ := by
                    simp [connect_to_bluetooth_device, hf, hr, hh, hn, hch, hcs, hca,
                          hname] at h
                    exact h.symm
                  subst hs
                  refine ⟨dev, services, service, ?_, ?_, ?_, ?_, ?_, ?_⟩ <;>
                    simp [connect_to_bluetooth_device, hf, hr, hh, hn, hch, hcs, hca,
                          hname]

theorem ctbd_ok_connect_count (p : Platform) (d : String) (s : StreamSocket)
    (h : (connect_to_bluetooth_device p d).1 = Except.ok s) :
    countSocketConnects (connect_to_bluetooth_device p d).2 = 1 := by
  obtain ⟨dev, services, service, _, _, _, _, _, htr⟩ := ctbd_ok p d s h
  rw [htr]
  simp [countSocketConnects]

theorem ctbd_trace_shape (p : Platform) (d : String) :
    (connect_to_bluetooth_device p d).2 = [PlatformCall.fromId d] ∨
    (connect_to_bluetooth_device p d).2 =
      [PlatformCall.fromId d, PlatformCall.getRfcommServices d] ∨
    ∃ host svc, (connect_to_bluetooth_device p d).2 =
      [PlatformCall.fromId d, PlatformCall.getRfcommServices d,
       PlatformCall.socketConnect host svc] := by
  rcases hf : p.fromIdAsync d with e | dev
  · left; simp [connect_to_bluetooth_device, hf]
  · rcases hr : dev.rfcommServices with e | services
    · right; left; simp [connect_to_bluetooth_device, hf, hr]
    · rcases hh : services.head? with _ | service
      · right; left; simp [connect_to_bluetooth_device, hf, hr, hh]
      · rcases hn : p.socketNew with e | u
        · right; left; simp [connect_to_bluetooth_device, hf, hr, hh, hn]
        · rcases hch : service.connectionHostName with e | host
          · right; left; simp [connect_to_bluetooth_device, hf, hr, hh, hn, hch]
          · rcases hcs : service.connectionServiceName with e | svc
            · right; left
              simp [connect_to_bluetooth_device, hf, hr, hh, hn, hch, hcs]
            · rcases hca : p.connectAsync host svc with e | u2
              · right; right
                exact ⟨host, svc, by
                  simp [connect_to_bluetooth_device, hf, hr, hh, hn, hch, hcs, hca]⟩
              · rcases hname : dev.name with e | nm
                · right; right
                  exact ⟨host, svc, by
                    simp [connect_to_bluetooth_device, hf, hr, hh, hn, hch, hcs, hca,
                          hname]⟩
                · right; right
                  exact ⟨host, svc, by
                    simp [connect_to_bluetooth_device, hf, hr, hh, hn, hch, hcs, hca,
                          hname]⟩

theorem ctbd_no_gatt (p : Platform) (d : String) (x : String) :
    PlatformCall.openGattSession x ∉ (connect_to_bluetooth_device p d).2 ∧
    PlatformCall.getGattServices x ∉ (connect_to_bluetooth_device p d).2 := by
  rcases ctbd_trace_shape p d with h | h | ⟨host, svc, h⟩ <;> rw [h] <;> simp

/-! ### Registry history lemmas -/

theorem mem_preserved_of_no_disconnect (p : Platform) (post : List Op)
    (m : ConnectionManager) (d : String)
    (hmem : contains_key m.active_connections d = true)
    (hnd : Op.disconnect d ∉ post) :
    contains_key (runOps p m post).active_connections d = true := by
  induction post generalizing m with
  | nil => exact hmem
  | cons op rest ih =>
    cases op with
    | connect d' =>
      exact ih (m.connect_device p d').2.1
        (connect_device_preserves_mem p m d' d hmem)
        (fun hin => hnd (List.mem_cons_of_mem _ hin))
    | disconnect d' =>
      have hne : d ≠ d' := by
        rintro rfl
        exact hnd (List.mem_cons_self _ _)
      refine ih (m.disconnect_device d').2 ?_
        (fun hin => hnd (List.mem_cons_of_mem _ hin))
      rw [disconnect_device_mem_ne m d' d hne]
      exact hmem

theorem mem_runOps_decompose (p : Platform) (ops : List Op) (d : String)
    (h : contains_key (runOps p ConnectionManager.new ops).active_connections d
          = true) :
    ∃ pre post, ops = pre ++ Op.connect d :: post ∧
      ((runOps p ConnectionManager.new pre).connect_device p d).1.isOk = true ∧
      Op.disconnect d ∉ post := by
  induction ops using List.reverseRecOn with
  | nil => simp [runOps, ConnectionManager.new, contains_key, mapLookup] at h
  | append_singleton ops' op ih =>
    rw [runOps_append] at h
    cases op with
    | connect d' =>
      by_cases hd : d' = d
      · subst hd
        by_cases hmem : contains_key
            (runOps p ConnectionManager.new ops').active_connections d'
        · obtain ⟨pre, post, hsplit, hok, hnd⟩ := ih hmem
          refine ⟨pre, post ++ [Op.connect d'], ?_, hok, ?_⟩
          · rw [hsplit]; simp
          · intro hin
            rcases List.mem_append.mp hin with hin1 | hin2
            · exact hnd hin1
            · simp at hin2
        · refine ⟨ops', [], by simp, ?_, by simp⟩
          rcases hc : connect_to_bluetooth_device p d' with ⟨res, tr⟩
          cases res with
          | error e =>
            simp only [runOps] at h
            rw [connect_device_of_not_mem_error p _ d' e tr
                (by simpa using hmem) hc] at h
            exact absurd h (by simpa using hmem)
          | ok s =>
            rw [connect_device_of_not_mem_ok p _ d' s tr
                (by simpa using hmem) hc]
            simp [Except.isOk, Except.toBool]
      · have h' : contains_key
            (runOps p ConnectionManager.new ops').active_connections d = true := by
          have heq := connect_device_mem_ne p
            (runOps p ConnectionManager.new ops') d' d (fun hh => hd hh.symm)
          simp only [runOps] at h
          rw [heq] at h
          exact h
        obtain ⟨pre, post, hsplit, hok, hnd⟩ := ih h'
        refine ⟨pre, post ++ [Op.connect d'], ?_, hok, ?_⟩
        · rw [hsplit]; simp
        · intro hin
          rcases List.mem_append.mp hin with hin1 | hin2
          · exact hnd hin1
          · simp at hin2
    | disconnect d' =>
      by_cases hd : d' = d
      · subst hd
        exfalso
        have hn := runOps_nodup p ConnectionManager.new ops'
          (by simp [ConnectionManager.new, keysAC])
        have := disconnect_device_not_mem_self
          (runOps p ConnectionManager.new ops') d' hn
        simp only [runOps] at h
        rw [h] at this
        simp at this
      · have h' : contains_key
            (runOps p ConnectionManager.new ops').active_connections d = true := by
          have heq := disconnect_device_mem_ne
            (runOps p ConnectionManager.new ops') d' d (fun hh => hd hh.symm)
          simp only [runOps] at h
          rw [heq] at h
          exact h
        obtain ⟨pre, post, hsplit, hok, hnd⟩ := ih h'
        refine ⟨pre, post ++ [Op.disconnect d'], ?_, hok, ?_⟩
        · rw [hsplit]; simp
        · intro hin
          rcases List.mem_append.mp hin with hin1 | hin2
          · exact hnd hin1
          · simp at hin2
            exact hd hin2.symm

theorem mem_runOps_of_decompose (p : Platform) (pre post : List Op) (d : String)
    (hok : ((runOps p ConnectionManager.new pre).connect_device p d).1.isOk = true)
    (hnd : Op.disconnect d ∉ post) :
    contains_key
      (runOps p ConnectionManager.new (pre ++ Op.connect d :: post)).active_connections
      d = true := by
  rw [runOps_append]
  simp only [runOps]
  exact mem_preserved_of_no_disconnect p post _ d
    (connect_device_ok_mem p _ d hok) hnd

/-! ### Event-loop lemmas -/

theorem handle_event_preserves_mem (p : Platform) (quitId : Nat)
    (device_map : List (Nat × String)) (st : LoopState) (ev : LoopEvent) (k : String)
    (h : contains_key st.manager.active_connections k = true) :
    contains_key
      (handle_event p quitId device_map st ev).1.manager.active_connections k
      = true := by
  cases ev with
  | newEventsInit => simpa [handle_event] using h
  | trayIconEvent info => simpa [handle_event] using h
  | other => simpa [handle_event] using h
  | menuEvent mid =>
    by_cases hq : mid = quitId
    · simpa [handle_event, hq] using h
    · rcases hm : mapLookup device_map mid with _ | did
      · simpa [handle_event, hq, hm] using h
      · rcases hc : st.manager.connect_device p did with ⟨res, m1, tr⟩
        have hmem : contains_key m1.active_connections k = true := by
          have := connect_device_preserves_mem p st.manager did k h
          rw [hc] at this
          exact this
        cases res <;> simpa [handle_event, hq, hm, hc] using hmem

theorem countSocketConnects_append (t1 t2 : List PlatformCall) :
    countSocketConnects (t1 ++ t2) =
      countSocketConnects t1 + countSocketConnects t2 := by
  induction t1 with
  | nil => simp [countSocketConnects]
  | cons c rest ih =>
    cases c with
    | socketConnect h s =>
      simp [countSocketConnects, ih]
      omega
    | fromId d2 => simp [countSocketConnects, ih]
    | getRfcommServices d2 => simp [countSocketConnects, ih]
    | openGattSession d2 => simp [countSocketConnects, ih]
    | getGattServices d2 => simp [countSocketConnects, ih]

/-! ## Claim theorems -/

/-- C1: Idempotent connect.  If a device id is already a key of the
registry, `connect_device` returns success immediately with no platform
call and an unchanged registry holding exactly one entry for the id
(given the HashMap key-uniqueness invariant); moreover, after any
successful `connect_device`, a second `connect_device` for the same id
performs no platform call, and the two successive calls — the first issued
with the id not yet connected — perform exactly one platform connect
invocation in total. -/
theorem C1_connect_idempotent (p : Platform) (m : ConnectionManager) (d : String) :
    (contains_key m.active_connections d = true →
      m.connect_device p d = (Except.ok (), m, []) ∧
      ((keysAC m.active_connections).Nodup → countKey m.active_connections d = 1)) ∧
    (∀ m1 tr1, m.connect_device p d = (Except.ok (), m1, tr1) →
      m1.connect_device p d = (Except.ok (), m1, []) ∧
      ((keysAC m.active_connections).Nodup → countKey m1.active_connections d = 1) ∧
      (contains_key m.active_connections d = false →
        countSocketConnects (tr1 ++ (m1.connect_device p d).2.2) = 1)) := by
  constructor
  · intro h
    exact ⟨connect_device_of_mem p m d h,
           fun hn => countKey_eq_one_of_nodup _ _ hn h⟩
  · intro m1 tr1 h
    have hmem1 : contains_key m1.active_connections d = true := by
      have := connect_device_ok_mem p m d (by rw [h]; rfl)
      rw [h] at this
      exact this
    have hsecond : m1.connect_device p d = (Except.ok (), m1, []) :=
      connect_device_of_mem p m1 d hmem1
    refine ⟨hsecond, ?_, ?_⟩
    · intro hn
      have hn1 : (keysAC m1.active_connections).Nodup := by
        have := connect_device_nodup p m d hn
        rw [h] at this
        exact this
      exact countKey_eq_one_of_nodup _ _ hn1 hmem1
    · intro habs
      rcases hc : connect_to_bluetooth_device p d with ⟨res, tr⟩
      cases res with
      | error e =>
        rw [connect_device_of_not_mem_error p m d e tr habs hc] at h
        exact absurd h (by simp)
      | ok s =>
        have hcount : countSocketConnects tr = 1 := by
          have := ctbd_ok_connect_count p d s (by rw [hc])
          rw [hc] at this
          exact this
        rw [connect_device_of_not_mem_ok p m d s tr habs hc] at h
        have htr : tr = tr1 := congrArg (fun x => x.2.2) h
        rw [hsecond, ← htr]
        simpa [countSocketConnects_append, countSocketConnects] using hcount

/-- C2: No partial state on connect failure.  If the device id is not in
the registry and the platform connect sequence fails, `connect_device`
returns that error, the registry is exactly the one from before the call,
and the device is not connected afterwards. -/
theorem C2_connect_failure_atomic (p : Platform) (m : ConnectionManager)
    (d : String) (e : Error)
    (habs : contains_key m.active_connections d = false)
    (hf : (connect_to_bluetooth_device p d).1 = Except.error e) :
    (m.connect_device p d).1 = Except.error e ∧
    (m.connect_device p d).2.1 = m ∧
    contains_key (m.connect_device p d).2.1.active_connections d = false := by
  rcases hc : connect_to_bluetooth_device p d with ⟨res, tr⟩
  rw [hc] at hf
  have hres : res = Except.error e := hf
  subst hres
  rw [connect_device_of_not_mem_error p m d e tr habs hc]
  exact ⟨rfl, rfl, habs⟩

/-- C3: Registry membership invariant.  Starting from the empty registry,
after any sequence of connect and disconnect operations a device id is a
key of the registry if and only if the operation sequence splits around a
`connect` of that id that succeeded in the state it ran in, with no
`disconnect` of that id afterwards. -/
theorem C3_registry_membership_invariant (p : Platform) (ops : List Op)
    (d : String) :
    contains_key (runOps p ConnectionManager.new ops).active_connections d = true ↔
    ∃ pre post, ops = pre ++ Op.connect d :: post ∧
      ((runOps p ConnectionManager.new pre).connect_device p d).1.isOk = true ∧
      Op.disconnect d ∉ post := by
  constructor
  · exact mem_runOps_decompose p ops d
  · rintro ⟨pre, post, rfl, hok, hnd⟩
    exact mem_runOps_of_decompose p pre post d hok hnd

/-- C4: Disconnect semantics.  On an id that is not a key,
`disconnect_device` returns false and leaves the manager unchanged; on an
id that is a key it returns true, removes exactly that entry (size drops
by one, every other key's binding is untouched), and the id is no longer
connected afterwards (given the HashMap key-uniqueness invariant). -/
theorem C4_disconnect_semantics (m : ConnectionManager) (d : String) :
    (contains_key m.active_connections d = false →
      m.disconnect_device d = (false, m)) ∧
    (contains_key m.active_connections d = true →
      (m.disconnect_device d).1 = true ∧
      (m.disconnect_device d).2.active_connections.length + 1 =
        m.active_connections.length ∧
      (∀ k, k ≠ d → mapLookup (m.disconnect_device d).2.active_connections k =
        mapLookup m.active_connections k) ∧
      ((keysAC m.active_connections).Nodup →
        contains_key (m.disconnect_device d).2.active_connections d = false)) := by
  refine ⟨disconnect_device_of_not_mem m d, fun h => ⟨?_, ?_, ?_, ?_⟩⟩
  · simp only [ConnectionManager.disconnect_device]
    rw [removeAC_fst]
    exact h
  · exact length_removeAC_of_mem _ _ h
  · intro k hk
    exact mapLookup_removeAC_ne _ _ _ hk
  · exact disconnect_device_not_mem_self m d

/-- C5: The registry's connectedness query (`active_connections.contains_key`,
the operation the spec names `isConnected`) is a pure lookup: it returns
true exactly when the device id is among the registry's keys, and it
leaves the manager — registry and handles — unchanged. -/
theorem C5_is_connected_pure (m : ConnectionManager) (d : String) :
    ((m.is_connected d).1 = true ↔ d ∈ keysAC m.active_connections) ∧
    (m.is_connected d).2 = m :=
  ⟨(mem_keysAC_iff _ _).symm, rfl⟩

/-- C1 witness: on `okPlatform`, connecting "A1" from the empty registry
succeeds with one socket connect; with "A1" connected (state `mgrA`) a
second connect is an immediate no-op and the total platform connect count
of the two calls is one. -/
theorem C1_connect_idempotent_witness :
    contains_key mgrA.active_connections "A1" = true ∧
    mgrA.connect_device okPlatform "A1" = (Except.ok (), mgrA, []) ∧
    countKey mgrA.active_connections "A1" = 1 ∧
    countSocketConnects
      ([PlatformCall.fromId "A1", PlatformCall.getRfcommServices "A1",
        PlatformCall.socketConnect "host-A1" "svc-A1"] ++
       (mgrA.connect_device okPlatform "A1").2.2) = 1 := by
  have h2 := (C1_connect_idempotent okPlatform ConnectionManager.new "A1").2 mgrA
    [PlatformCall.fromId "A1", PlatformCall.getRfcommServices "A1",
     PlatformCall.socketConnect "host-A1" "svc-A1"] rfl
  have h1 := (C1_connect_idempotent okPlatform mgrA "A1").1 rfl
  exact ⟨rfl, h1.1, h2.2.1 (by simp [ConnectionManager.new, keysAC]), h2.2.2 rfl⟩

/-- C2 witness: connecting "X9" on `failPlatform` from the empty registry
fails with the resolution error and leaves the registry untouched. -/
theorem C2_connect_failure_atomic_witness :
    contains_key ConnectionManager.new.active_connections "X9" = false ∧
    (connect_to_bluetooth_device failPlatform "X9").1 = Except.error ⟨3⟩ ∧
    (ConnectionManager.new.connect_device failPlatform "X9").1 =
      Except.error ⟨3⟩ ∧
    (ConnectionManager.new.connect_device failPlatform "X9").2.1 =
      ConnectionManager.new ∧
    contains_key
      (ConnectionManager.new.connect_device failPlatform "X9").2.1.active_connections
      "X9" = false := by
  have h :=
    C2_connect_failure_atomic failPlatform ConnectionManager.new "X9" ⟨3⟩ rfl rfl
  exact ⟨rfl, rfl, h.1, h.2.1, h.2.2⟩

/-- C4 witness: on the registry holding only "A1", disconnecting "Z9" is a
no-op returning false, and disconnecting "A1" returns true, empties the
registry, and leaves "A1" not connected. -/
theorem C4_disconnect_semantics_witness :
    mgrA.disconnect_device "Z9" = (false, mgrA) ∧
    (mgrA.disconnect_device "A1").1 = true ∧
    (mgrA.disconnect_device "A1").2.active_connections.length + 1 =
      mgrA.active_connections.length ∧
    mapLookup (mgrA.disconnect_device "A1").2.active_connections "B2" =
      mapLookup mgrA.active_connections "B2" ∧
    contains_key (mgrA.disconnect_device "A1").2.active_connections "A1" = false := by
  have h1 := (C4_disconnect_semantics mgrA "Z9").1 rfl
  have h2 := (C4_disconnect_semantics mgrA "A1").2 rfl
  exact ⟨h1, h2.1, h2.2.1, h2.2.2.1 "B2" (by decide), h2.2.2.2 (by decide)⟩

/-- C6 counterexample: on `lePlatform`, device "LE1" is a low-energy
device, yet the connect sequence performs the classic RFCOMM path (service
enumeration and a stream-socket connect) and opens no GATT session —
contradicting the claim that connects to low-energy devices open a GATT
session and enumerate GATT services. -/
theorem C6_counterexample_le_device_no_gatt :
    (∃ dev, lePlatform.fromIdAsync "LE1" = Except.ok dev ∧
      dev.kind = BluetoothKind.lowEnergy) ∧
    (connect_to_bluetooth_device lePlatform "LE1").1 =
      Except.ok ⟨"le-host", "le-svc"⟩ ∧
    (connect_to_bluetooth_device lePlatform "LE1").2 =
      [PlatformCall.fromId "LE1", PlatformCall.getRfcommServices "LE1",
       PlatformCall.socketConnect "le-host" "le-svc"] ∧
    ¬ opensGattSession (connect_to_bluetooth_device lePlatform "LE1").2 := by
  refine ⟨⟨_, rfl, rfl⟩, rfl, rfl, ?_⟩
  rintro ⟨x, hx⟩
  rw [show (connect_to_bluetooth_device lePlatform "LE1").2 =
      [PlatformCall.fromId "LE1", PlatformCall.getRfcommServices "LE1",
       PlatformCall.socketConnect "le-host" "le-svc"] from rfl] at hx
  simp at hx

/-- C6 amended: the connect sequence does not branch on device type.  For
every device id — classic or low-energy — it takes only the classic RFCOMM
path: no GATT session is ever opened and no GATT services are ever
enumerated; a successful connect resolves the device, enumerates its
RFCOMM services, selects the first, and opens a stream socket against that
service's host/service-name pair, yielding one `StreamSocket` handle. -/
theorem C6_connect_rfcomm_only (p : Platform) (d : String) :
    (∀ x, PlatformCall.openGattSession x ∉ (connect_to_bluetooth_device p d).2 ∧
          PlatformCall.getGattServices x ∉ (connect_to_bluetooth_device p d).2) ∧
    (∀ s, (connect_to_bluetooth_device p d).1 = Except.ok s →
      ∃ dev services service,
        p.fromIdAsync d = Except.ok dev ∧
        dev.rfcommServices = Except.ok services ∧
        services.head? = some service ∧
        service.connectionHostName = Except.ok s.host ∧
        service.connectionServiceName = Except.ok s.service ∧
        (connect_to_bluetooth_device p d).2 =
          [PlatformCall.fromId d, PlatformCall.getRfcommServices d,
           PlatformCall.socketConnect s.host s.service]) :=
  ⟨fun x => ctbd_no_gatt p d x, fun s hs => ctbd_ok p d s hs⟩

/-- C6 witness: the amended theorem instantiated on `lePlatform` and device
"LE1", whose connect succeeds through the RFCOMM path. -/
theorem C6_connect_rfcomm_only_witness :
    PlatformCall.openGattSession "LE1" ∉
      (connect_to_bluetooth_device lePlatform "LE1").2 ∧
    (connect_to_bluetooth_device lePlatform "LE1").1 =
      Except.ok ⟨"le-host", "le-svc"⟩ ∧
    ∃ dev services service,
      lePlatform.fromIdAsync "LE1" = Except.ok dev ∧
      dev.rfcommServices = Except.ok services ∧
      services.head? = some service ∧
      service.connectionHostName = Except.ok "le-host" ∧
      service.connectionServiceName = Except.ok "le-svc" ∧
      (connect_to_bluetooth_device lePlatform "LE1").2 =
        [PlatformCall.fromId "LE1", PlatformCall.getRfcommServices "LE1",
         PlatformCall.socketConnect "le-host" "le-svc"] :=
  ⟨((C6_connect_rfcomm_only lePlatform "LE1").1 "LE1").1, rfl,
   (C6_connect_rfcomm_only lePlatform "LE1").2 ⟨"le-host", "le-svc"⟩ rfl⟩

/-- C7 counterexample: on `failDiscovery` the device enumeration fails and
`startup` panics (`Result::unwrap` on the `Err`), so the program does not
proceed with an empty, still-valid device list and menu. -/
theorem C7_counterexample_startup_panics :
    get_paired_bluetooth_devices failDiscovery = Except.error ⟨4⟩ ∧
    startup failDiscovery =
      Except.error "called Result::unwrap on an Err value" ∧
    startup failDiscovery ≠ Except.ok ⟨[], []⟩ := by
  refine ⟨rfl, rfl, ?_⟩
  intro h
  rw [show startup failDiscovery =
      Except.error "called Result::unwrap on an Err value" from rfl] at h
  exact Except.noConfusion h

/-- C7 amended: when the platform device enumeration fails at startup, the
program crashes — `main` panics via `unwrap` on the discovery error —
instead of proceeding with an empty device list and menu. -/
theorem C7_startup_panics_on_discovery_failure (dp : DiscoveryPlatform)
    (e : Error) (h : get_paired_bluetooth_devices dp = Except.error e) :
    startup dp = Except.error "called Result::unwrap on an Err value" := by
  simp [startup, h]

/-- C7 witness: the amended theorem instantiated on `failDiscovery`. -/
theorem C7_startup_panics_witness :
    get_paired_bluetooth_devices failDiscovery = Except.error ⟨4⟩ ∧
    startup failDiscovery = Except.error "called Result::unwrap on an Err value" :=
  ⟨rfl, C7_startup_panics_on_discovery_failure failDiscovery ⟨4⟩ rfl⟩

/-- C8 counterexample: `namelessDiscovery` enumerates one paired device
whose `Name()` fails, and `get_paired_bluetooth_devices` nevertheless
succeeds — the discovery call raises no name-missing error; the hard error
surfaces only later, in `main`'s menu construction. -/
theorem C8_counterexample_discovery_succeeds_nameless :
    get_paired_bluetooth_devices namelessDiscovery = Except.ok [namelessDevice] ∧
    namelessDevice.Name = Except.error ⟨5⟩ ∧
    buildDeviceMenu 0 [namelessDevice] =
      Except.error "device name doesn't exist" :=
  ⟨rfl, rfl, rfl⟩

/-- C8 amended: a discovered device lacking a human-readable name does not
fail `get_paired_bluetooth_devices`; instead the startup menu construction
panics (`expect` on `Name()`), so no menu is ever produced from a device
list containing a nameless device — the name is never silently defaulted
or substituted by the raw id. -/
theorem C8_nameless_device_panics_menu (devs : List DeviceInformation)
    (d : DeviceInformation) (e : Error) (fresh : Nat)
    (hd : d ∈ devs) (hn : d.Name = Except.error e) :
    ∀ menu, buildDeviceMenu fresh devs ≠ Except.ok menu := by
  induction devs generalizing fresh with
  | nil => cases hd
  | cons hd0 tl ih =>
    intro menu hmenu
    rcases List.mem_cons.mp hd with rfl | hmem
    · simp [buildDeviceMenu, hn] at hmenu
    · rcases hname : hd0.Name with e0 | label
      · simp [buildDeviceMenu, hname] at hmenu
      · rcases hid : hd0.Id with e0 | did
        · simp [buildDeviceMenu, hname, hid] at hmenu
        · rcases hrec : buildDeviceMenu (fresh + 1) tl with msg | menu1
          · simp [buildDeviceMenu, hname, hid, hrec] at hmenu
          · exact ih (fresh + 1) hmem menu1 hrec

/-- C8 witness: the amended theorem instantiated on the singleton device
list containing the nameless device. -/
theorem C8_nameless_device_panics_menu_witness :
    namelessDevice ∈ [namelessDevice] ∧
    namelessDevice.Name = Except.error ⟨5⟩ ∧
    buildDeviceMenu 0 [namelessDevice] ≠ Except.ok ⟨[], []⟩ :=
  ⟨List.mem_singleton.mpr rfl, rfl,
   C8_nameless_device_panics_menu [namelessDevice] namelessDevice ⟨5⟩ 0
     (List.mem_singleton.mpr rfl) rfl ⟨[], []⟩⟩

/-- C9: the application never exits because of a connect failure.  For a
menu-selection event whose id is not the quit item's and maps to a known
device, a failing `connect_device` leaves control flow at `Wait` (the loop
continues), leaves the registry unchanged, and only emits the failure log
line; conversely the `Exit` control path is reached only by selecting the
quit menu item. -/
theorem C9_no_exit_on_connect_failure (p : Platform) (quitId : Nat)
    (device_map : List (Nat × String)) (st : LoopState) :
    (∀ mid device_id e m1 tr, mid ≠ quitId →
      mapLookup device_map mid = some device_id →
      st.manager.connect_device p device_id = (Except.error e, m1, tr) →
      (handle_event p quitId device_map st (LoopEvent.menuEvent mid)).2.1 =
        ControlFlow.Wait ∧
      (handle_event p quitId device_map st (LoopEvent.menuEvent mid)).1.manager =
        st.manager ∧
      (handle_event p quitId device_map st (LoopEvent.menuEvent mid)).2.2 =
        [failLogLine e]) ∧
    (∀ ev, (handle_event p quitId device_map st ev).2.1 = ControlFlow.Exit →
      ev = LoopEvent.menuEvent quitId) := by
  constructor
  · intro mid device_id e m1 tr hne hmap hconn
    have hm1 : m1 = st.manager := by
      have h0 := connect_device_error_unchanged p st.manager device_id e
        (by rw [hconn])
      rw [hconn] at h0
      exact h0
    subst hm1
    simp [handle_event, hne, hmap, hconn]
  · intro ev hev
    cases ev with
    | newEventsInit => simp [handle_event] at hev
    | trayIconEvent info => simp [handle_event] at hev
    | other => simp [handle_event] at hev
    | menuEvent mid =>
      by_cases hq : mid = quitId
      · rw [hq]
      · exfalso
        rcases hm : mapLookup device_map mid with _ | did
        · simp [handle_event, hq, hm] at hev
        · rcases hc : st.manager.connect_device p did with ⟨res, m1, tr⟩
          cases res <;> simp [handle_event, hq, hm, hc] at hev

/-- C9 witness: a failing device selection on `failPlatform` keeps the loop
in `Wait` with an unchanged registry and one failure log line, and the
quit selection is the event the `Exit` path identifies. -/
theorem C9_no_exit_on_connect_failure_witness :
    (handle_event failPlatform 0 [(1, "X9")] ⟨ConnectionManager.new, true⟩
      (LoopEvent.menuEvent 1)).2.1 = ControlFlow.Wait ∧
    (handle_event failPlatform 0 [(1, "X9")] ⟨ConnectionManager.new, true⟩
      (LoopEvent.menuEvent 1)).1.manager = ConnectionManager.new ∧
    (handle_event failPlatform 0 [(1, "X9")] ⟨ConnectionManager.new, true⟩
      (LoopEvent.menuEvent 1)).2.2 = [failLogLine ⟨3⟩] ∧
    LoopEvent.menuEvent 0 = LoopEvent.menuEvent 0 := by
  have h := (C9_no_exit_on_connect_failure failPlatform 0 [(1, "X9")]
    ⟨ConnectionManager.new, true⟩).1 1 "X9" ⟨3⟩ ConnectionManager.new
    [PlatformCall.fromId "X9"] (by decide) rfl rfl
  have h2 := (C9_no_exit_on_connect_failure failPlatform 0 [(1, "X9")]
    ⟨ConnectionManager.new, true⟩).2 (LoopEvent.menuEvent 0) rfl
  exact ⟨h.1, h.2.1, h.2.2, h2⟩

/-- C10: no dispatched event ever removes a registry entry —
`disconnect_device` is unreachable from the event loop — so the registry's
key set is monotonically non-decreasing: a device id that is a key stays a
key after any sequence of dispatched events (the loop stopping at an
`Exit`). -/
theorem C10_registry_monotone (p : Platform) (quitId : Nat)
    (device_map : List (Nat × String)) (st : LoopState) (evs : List LoopEvent)
    (k : String) (h : contains_key st.manager.active_connections k = true) :
    contains_key
      (runEvents p quitId device_map st evs).manager.active_connections k
      = true := by
  induction evs generalizing st with
  | nil => exact h
  | cons ev rest ih =>
    have hpres := handle_event_preserves_mem p quitId device_map st ev k h
    rcases hcf : handle_event p quitId device_map st ev with ⟨st1, cf, logs⟩
    rw [hcf] at hpres
    cases cf with
    | Exit => simpa [runEvents, hcf] using hpres
    | Wait =>
      have hrest := ih st1 hpres
      simpa [runEvents, hcf] using hrest

/-- C10 witness: with "A1" connected, after a tray event, a failing device
selection and the quit selection, "A1" is still a registry key. -/
theorem C10_registry_monotone_witness :
    contains_key mgrA.active_connections "A1" = true ∧
    contains_key
      (runEvents failPlatform 0 [(1, "X9")] ⟨mgrA, true⟩
        [LoopEvent.trayIconEvent "tray", LoopEvent.menuEvent 1,
         LoopEvent.menuEvent 0]).manager.active_connections "A1" = true :=
  ⟨rfl, C10_registry_monotone failPlatform 0 [(1, "X9")] ⟨mgrA, true⟩
    [LoopEvent.trayIconEvent "tray", LoopEvent.menuEvent 1,
     LoopEvent.menuEvent 0] "A1" rfl⟩

end Bluetray
